import Mathlib

/-!
# Verification of the XPlaneConnect Python client protocol codec

Shallow embedding of src/Python/src/xpc.py (a Python 2 UDP protocol codec for
the X-Plane Connect plugin).  Modelling conventions:

* A byte is a Nat below 256; a wire buffer is a List Nat.
* Python numbers handed to the codec are modelled as exact rationals.  The
  struct module converts a number packed with format f to IEEE-754 binary32
  with round-to-nearest-even, raising OverflowError when a finite value
  converts to an infinite binary32 (CPython float packing rejects that case
  before writing anything).  pack_f below models that fallible conversion on
  the rational value, f32le is the byte payload of a successful conversion,
  and f32val is the exact rational value of a binary32 bit pattern.  (The
  remaining deviation from double-precision Python arithmetic is that
  comparisons such as abs(val + 998) < 1e-4 in sendCTRL are evaluated in
  exact rational arithmetic.)
* Each send operation returns Except Err (List Nat): ok buf means the single
  complete buffer buf is handed to sendUDP, error means the Python call
  raises before the sendUDP call, so nothing at all is sent.  Err.valueError
  models ValueError raised by the explicit argument checks; Err.structError
  models struct.error raised inside struct.pack / struct.unpack_from.
* Python 2 struct semantics modelled: format B raises struct.error outside
  [0, 255]; b outside [-128, 127]; I outside [0, 2^32); i outside
  [-2^31, 2^31); integer formats accept Python floats by truncation toward
  zero (Python 2.7 behaviour, with a DeprecationWarning).
-/

/-- Error kinds raised by the codec before anything is sent: ValueError from
the explicit validations, struct.error from struct.pack or unpack_from, and
OverflowError from packing a finite number that falls outside the binary32
range with format f. -/
inductive Err
  | valueError
  | structError
  | overflowError
  deriving DecidableEq

deriving instance DecidableEq for Except

/-- Little-endian 4-byte encoding of a 32-bit pattern. -/
def bytes4LE (n : Nat) : List Nat :=
  [n % 256, n / 256 % 256, n / 65536 % 256, n / 16777216 % 256]

/-- Recombine 4 little-endian bytes into a 32-bit pattern. -/
def dec4LE (a b c d : Nat) : Nat :=
  a + 256 * b + 65536 * c + 16777216 * d

/-- Truncation toward zero: what Python 2 int() does to a number, and what
struct.pack does to a float given for an integer format code. -/
def qtrunc (q : ℚ) : ℤ :=
  (if 0 ≤ q.num then 1 else -1) * ((q.num.natAbs / q.den : ℕ) : ℤ)

/-- Round a nonnegative rational to the nearest integer, ties to even
(the IEEE-754 default rounding used by struct when narrowing to binary32).
Only ever applied to nonnegative arguments. -/
def roundHalfEven (q : ℚ) : ℤ :=
  let fl : ℤ := ((q.num.toNat / q.den : ℕ) : ℤ)
  let fr : ℚ := q - (fl : ℚ)
  if fr < 1 / 2 then fl
  else if 1 / 2 < fr then fl + 1
  else if fl % 2 = 0 then fl else fl + 1

/-- Largest exponent e in [-149, 127] with 2 ^ e ≤ a, scanning downward from
the fuel (called with fuel 277 so that e = fuel - 1 - 149 starts at 127);
returns -150 when a < 2 ^ (-149). -/
def findExp : Nat → ℚ → ℤ
  | 0, _ => -150
  | k + 1, a => if (2 : ℚ) ^ ((k : ℤ) - 149) ≤ a then (k : ℤ) - 149 else findExp k a

/-- IEEE-754 binary32 bit pattern (as a Nat) nearest to the positive rational
a, ties to even; overflow gives the +infinity pattern 0x7F800000, which
pack_f below rejects with OverflowError, as struct.pack does for a finite
value whose conversion to binary32 overflows. -/
def roundF32pos (a : ℚ) : Nat :=
  let e : ℤ := findExp 277 a
  if e < -126 then
    -- subnormal range (or underflow to zero); unit in the last place 2 ^ (-149)
    (roundHalfEven (a * 2 ^ 149)).toNat
  else
    -- normal range: 24-bit significand M in [2 ^ 23, 2 ^ 24]
    let M : ℤ := roundHalfEven (a * (2 : ℚ) ^ ((23 : ℤ) - e))
    if (2 : ℤ) ^ 24 ≤ M then
      if e = 127 then 0x7F800000 else (e + 128).toNat * 2 ^ 23
    else (e + 127).toNat * 2 ^ 23 + (M - 2 ^ 23).toNat

/-- IEEE-754 binary32 bit pattern of a rational: sign bit plus magnitude. -/
def roundF32 (q : ℚ) : Nat :=
  if q < 0 then 2 ^ 31 + roundF32pos (-q) else roundF32pos q

/-- The 4 little-endian bytes a SUCCESSFUL struct.pack format f call
produces for a number; pack_f below decides whether the call succeeds and is
the model of struct.pack format f used by every operation. -/
def f32le (q : ℚ) : List Nat :=
  bytes4LE (roundF32 q)

/-- A value the struct f format can pack: its magnitude does not round to
the infinite binary32, i.e. |q| is below the overflow rounding threshold
2 ^ 128 - 2 ^ 103. -/
abbrev F32Packable (q : ℚ) : Prop :=
  roundF32pos |q| ≠ 0x7F800000

/-- struct.pack format f: the 4 little-endian binary32 bytes, or
OverflowError when the finite value converts to an infinite binary32
(CPython raises before anything is written). -/
def pack_f (q : ℚ) : Except Err (List Nat) :=
  if roundF32pos |q| = 0x7F800000 then .error .overflowError
  else .ok (f32le q)

/-- Exact rational value of a binary32 bit pattern, as struct.unpack format f
reads it back.  Finite interpretation: patterns with biased exponent 255
(infinities, NaNs) are given the value of the same formula; no claim in this
development exercises them. -/
def f32val (b : Nat) : ℚ :=
  let s : ℕ := b / 2 ^ 31
  let E : ℕ := b / 2 ^ 23 % 256
  let m : ℕ := b % 2 ^ 23
  let mag : ℚ := if E = 0 then (m : ℚ) / 2 ^ 149 else ((2 ^ 23 + m : ℕ) : ℚ) * (2 : ℚ) ^ ((E : ℤ) - 150)
  if s = 1 then -mag else mag

/-- struct.pack format B (unsigned byte): struct.error outside [0, 255]. -/
def pack_B (n : ℤ) : Except Err (List Nat) :=
  if 0 ≤ n ∧ n ≤ 255 then .ok [n.toNat] else .error .structError

/-- struct.pack format b (signed byte): struct.error outside [-128, 127];
the byte sent is the two-complement representation. -/
def pack_b (n : ℤ) : Except Err (List Nat) :=
  if -128 ≤ n ∧ n ≤ 127 then .ok [(n % 256).toNat] else .error .structError

/-- struct.pack format H, little-endian (unsigned 16-bit). -/
def pack_H (n : ℤ) : Except Err (List Nat) :=
  if 0 ≤ n ∧ n ≤ 65535 then .ok [n.toNat % 256, n.toNat / 256] else .error .structError

/-- struct.pack format I, little-endian (unsigned 32-bit). -/
def pack_I (n : ℤ) : Except Err (List Nat) :=
  if 0 ≤ n ∧ n < 2 ^ 32 then .ok (bytes4LE n.toNat) else .error .structError

/-- struct.pack format i, little-endian (signed 32-bit, two-complement). -/
def pack_i (n : ℤ) : Except Err (List Nat) :=
  if -(2 ^ 31) ≤ n ∧ n < 2 ^ 31 then .ok (bytes4LE (n % 2 ^ 32).toNat) else .error .structError

/-- setCONN (xpc.py lines 72-83): validate the port, then send the buffer
struct.pack("<4sxH", "CONN", port).  Tag bytes are the ASCII codes of CONN
followed by the pad byte of format x. -/
def setCONN (port : ℤ) : Except Err (List Nat) :=
  if port < 0 ∨ 65535 < port then .error .valueError
  else do
    let p ← pack_H port
    .ok ([67, 79, 78, 78, 0] ++ p)

/-- pauseSim (lines 85-96): validate int(pause) in [0, 2], then send
struct.pack("<4sxB", "SIMU", pause). -/
def pauseSim (pause : ℤ) : Except Err (List Nat) :=
  if pause < 0 ∨ 2 < pause then .error .valueError
  else do
    let p ← pack_B pause
    .ok ([83, 73, 77, 85, 0] ++ p)

/-- A run of consecutive format f fields in one struct.pack call, converted
in order; the first failing (overflowing) value aborts the whole call. -/
def packFloats : List ℚ → Except Err (List Nat)
  | [] => .ok []
  | q :: t => do
    let b ← pack_f q
    let rest ← packFloats t
    .ok (b ++ rest)

/-- One iteration of the sendDATA row loop (lines 128-131): ValueError unless
the row has exactly 9 values, then struct.pack("<I8f", *row) - the first
value through the unsigned 32-bit format I (truncated toward zero, range
checked), the remaining 8 through format f (each can overflow). -/
def packRow (row : List ℚ) : Except Err (List Nat) :=
  if row.length ≠ 9 then .error .valueError
  else do
    let idx ← pack_I (qtrunc (row.getD 0 0))
    let fs ← packFloats (row.drop 1)
    .ok (idx ++ fs)

/-- The sendDATA loop over data rows, concatenating the per-row packs in
order; the first failing row aborts the whole call before sendUDP. -/
def packRows : List (List ℚ) → Except Err (List Nat)
  | [] => .ok []
  | r :: t => do
    let b ← packRow r
    let rest ← packRows t
    .ok (b ++ rest)

/-- sendDATA (lines 116-132): ValueError beyond 134 rows, then the header
struct.pack("<4sx", "DATA") followed by the packed rows. -/
def sendDATA (data : List (List ℚ)) : Except Err (List Nat) :=
  if 134 < data.length then .error .valueError
  else do
    let body ← packRows data
    .ok ([68, 65, 84, 65, 0] ++ body)

/-- struct.unpack_from("f", buf, off) repeated n times at consecutive 4-byte
offsets; struct.error when a read would pass the end of the buffer. -/
def readF32s (buf : List Nat) : Nat → Nat → Except Err (List ℚ)
  | _, 0 => .ok []
  | off, n + 1 =>
    match buf.get? off, buf.get? (off + 1), buf.get? (off + 2), buf.get? (off + 3) with
    | some a, some b, some c, some d => do
      let rest ← readF32s buf (off + 4) n
      .ok (f32val (dec4LE a b c d) :: rest)
    | _, _, _, _ => .error .structError

/-- The readDATA loop: n calls of struct.unpack_from("9f", buffer, 5 + 36 i),
modelled with a running offset that starts at 5 and advances by 36. -/
def readRows (buf : List Nat) : Nat → Nat → Except Err (List (List ℚ))
  | _, 0 => .ok []
  | off, n + 1 => do
    let r ← readF32s buf off 9
    let rest ← readRows buf (off + 36) n
    .ok (r :: rest)

/-- readDATA (lines 99-114): None (the no-data sentinel, ok none here) for a
received buffer below 6 bytes, else (len - 5) / 36 rows - Python 2 integer
division - of 9 floats each, read starting at offset 5. -/
def readDATA (buf : List Nat) : Except Err (Option (List (List ℚ))) :=
  if buf.length < 6 then .ok none
  else do
    let rows ← readRows buf 5 ((buf.length - 5) / 36)
    .ok (some rows)

/-- sendPOSI (lines 135-167): validate the value count and aircraft number,
then the header struct.pack("<4sxB", "POSI", ac) followed by the loop over
i in range(7) packing values[i], defaulting to -998, with format f (each
pack can raise OverflowError, aborting before sendUDP).  The loop is
unrolled here (fixed bound 7). -/
def sendPOSI (values : List ℚ) (ac : ℤ) : Except Err (List Nat) :=
  if values.length < 1 ∨ 7 < values.length then .error .valueError
  else if ac < 0 ∨ 20 < ac then .error .valueError
  else do
    let a ← pack_B ac
    let b0 ← pack_f (values.getD 0 (-998))
    let b1 ← pack_f (values.getD 1 (-998))
    let b2 ← pack_f (values.getD 2 (-998))
    let b3 ← pack_f (values.getD 3 (-998))
    let b4 ← pack_f (values.getD 4 (-998))
    let b5 ← pack_f (values.getD 5 (-998))
    let b6 ← pack_f (values.getD 6 (-998))
    .ok ([80, 79, 83, 73, 0] ++ a ++ b0 ++ b1 ++ b2 ++ b3 ++ b4 ++ b5 ++ b6)

/-- The trailing speedbrake bytes of sendCTRL (lines 205-206): only when
exactly 7 values were given, struct.pack("<f", values[6]); otherwise nothing
is appended. -/
def packSpeedbrake (values : List ℚ) : Except Err (List Nat) :=
  if values.length = 7 then pack_f (values.getD 6 (-998)) else .ok []

/-- sendCTRL (lines 170-209): validate the value count and aircraft number;
then the loop over i in range(6), unrolled in loop order: format f for i in
0-3 (each can overflow), and for i == 4 (gear) the sentinel test
abs(val + 998) < 1e-4 replaces val by the integer -1, after which the value
goes through the signed byte format b; format f for i = 5; then format B for
ac and the speedbrake bytes. -/
def sendCTRL (values : List ℚ) (ac : ℤ) : Except Err (List Nat) :=
  if values.length < 1 ∨ 7 < values.length then .error .valueError
  else if ac < 0 ∨ 20 < ac then .error .valueError
  else do
    let b0 ← pack_f (values.getD 0 (-998))
    let b1 ← pack_f (values.getD 1 (-998))
    let b2 ← pack_f (values.getD 2 (-998))
    let b3 ← pack_f (values.getD 3 (-998))
    let g ← pack_b (qtrunc
      (if |values.getD 4 (-998) + 998| < 1 / 10000 then -1 else values.getD 4 (-998)))
    let b5 ← pack_f (values.getD 5 (-998))
    let a ← pack_B ac
    let sb ← packSpeedbrake values
    .ok ([67, 84, 82, 76, 0] ++ b0 ++ b1 ++ b2 ++ b3 ++ g ++ b5 ++ a ++ sb)

/-- The values argument of sendDREF: Python None, a scalar number, or a
sequence of numbers (anything with a len). -/
inductive DREFValues
  | null
  | scalar (q : ℚ)
  | seq (qs : List ℚ)
  deriving DecidableEq

/-- sendDREF (lines 212-238): validate the dataref name length and values
not None; for a sequence, validate the count, then call
struct.pack(fmt, "DREF", len(dref), dref, len(values), values) where fmt is
"<4sxB{0:d}sB{1:d}f".format(len(dref), len(values)).  That format consumes
4 + len(values) arguments ("4s", "B", the name "s", "B", and one "f" per
value) but the call supplies exactly 5, the last being the sequence object
itself rather than its elements (the * splat is missing in this repository):
with len(values) different from 1 the argument count is wrong, and with
len(values) = 1 the fifth argument is a sequence where a float is required.
Either way struct.pack raises struct.error.  For a scalar the format
"<4sxB{0:d}sBf" consumes 5 arguments and the call works. -/
def sendDREF (dref : List Nat) (values : DREFValues) : Except Err (List Nat) :=
  if dref.length = 0 ∨ 255 < dref.length then .error .valueError
  else
    match values with
    | .null => .error .valueError
    | .seq qs =>
      if 255 < qs.length then .error .valueError
      else if 4 + qs.length ≠ 5 then .error .structError
      else .error .structError
    | .scalar q => do
      let n ← pack_B dref.length
      let c ← pack_B 1
      let v ← pack_f q
      .ok ([68, 82, 69, 70, 0] ++ n ++ dref ++ c ++ v)

/-- The request-building half of getDREFs (lines 259-264): the loop
appending struct.pack("<B{0:d}s".format(len(dref)), len(dref), dref) for
each dataref name. -/
def getdParts : List (List Nat) → Except Err (List Nat)
  | [] => .ok []
  | d :: t => do
    let n ← pack_B d.length
    let rest ← getdParts t
    .ok (n ++ d ++ rest)

/-- The GETD request buffer getDREFs hands to sendUDP (lines 259-264):
struct.pack("<4sxB", "GETD", len(drefs)) followed by the per-name packs.
No validation is performed beyond the struct range checks.  (The response
parsing half of getDREFs is not needed by any claim.) -/
def getDREFsRequest (drefs : List (List Nat)) : Except Err (List Nat) := do
  let c ← pack_B drefs.length
  let parts ← getdParts drefs
  .ok ([71, 69, 84, 68, 0] ++ c ++ parts)

/-- sendTEXT (lines 281-301): ValueError when y < -1; a None message becomes
the empty string; then struct.pack("<4sxiiB" + str(msgLen) + "s", "TEXT",
x, y, msgLen, msg) - x and y through the signed 32-bit format i, the length
through format B (struct.error beyond 255 bytes), then the message bytes. -/
def sendTEXT (msg : Option (List Nat)) (x y : ℤ) : Except Err (List Nat) :=
  if y < -1 then .error .valueError
  else do
    let m := msg.getD []
    let bx ← pack_i x
    let yb ← pack_i y
    let c ← pack_B m.length
    .ok ([84, 69, 88, 84, 0] ++ bx ++ yb ++ c ++ m)

/-- sendWYPT (lines 303-326): validate op in [1, 3], the point list length
divisible by 3, and at most 255 points (Python 2 integer division by 3);
op = 3 sends the fixed buffer struct.pack("<4sxBB", "WYPT", 3, 0); otherwise
struct.pack("<4sxBB" + str(len(points)) + "f", "WYPT", op, len(points),
*points) packs op and the total float count through format B - so a float
count beyond 255 raises struct.error - followed by the floats. -/
def sendWYPT (op : ℤ) (points : List ℚ) : Except Err (List Nat) :=
  if op < 1 ∨ 3 < op then .error .valueError
  else if points.length % 3 ≠ 0 then .error .valueError
  else if 255 < points.length / 3 then .error .valueError
  else if op = 3 then .ok [87, 89, 80, 84, 0, 3, 0]
  else do
    let o ← pack_B op
    let c ← pack_B points.length
    let fs ← packFloats points
    .ok ([87, 89, 80, 84, 0] ++ o ++ c ++ fs)

/-- The 16384-byte transport limit (the readUDP receive buffer size, line
69): an encoder result respects it when a buffer it hands to sendUDP is at
most 16384 bytes; a raised error hands nothing over. -/
def withinLimit : Except Err (List Nat) → Prop
  | .ok b => b.length ≤ 16384
  | .error _ => True

/-- Length of the ok payload of an encoder result, none on error. -/
def okLength : Except Err (List Nat) → Option Nat
  | .ok b => some b.length
  | .error _ => none

set_option maxRecDepth 100000

section

attribute [local semireducible] Rat.mul Rat.inv Rat.add Rat.sub Rat.ofScientific

@[simp] theorem ok_bind {α β : Type} (a : α) (f : α → Except Err β) :
    (Except.ok a >>= f) = f a := rfl

@[simp] theorem error_bind {α β : Type} (e : Err) (f : α → Except Err β) :
    ((Except.error e : Except Err α) >>= f) = Except.error e := rfl

theorem f32le_length (q : ℚ) : (f32le q).length = 4 := rfl

theorem flatten_map_f32le_length (l : List ℚ) :
    ((l.map f32le).flatten).length = 4 * l.length := by
  induction l with
  | nil => rfl
  | cons q t ih =>
    simp [List.map_cons, List.flatten_cons, ih, f32le_length]
    ring

theorem pack_f_ok {q : ℚ} (h : F32Packable q) : pack_f q = .ok (f32le q) := by
  unfold pack_f
  rw [if_neg h]

theorem pack_f_ok_inv {q : ℚ} {b : List ℕ} (h : pack_f q = .ok b) : b.length = 4 := by
  unfold pack_f at h
  split at h
  case isTrue => simp at h
  case isFalse => injection h with h2; exact h2 ▸ f32le_length q

theorem bind_ok_inv {α β : Type} {r : Except Err α} {f : α → Except Err β} {b : β}
    (h : (r >>= f) = .ok b) : ∃ a, r = .ok a ∧ f a = .ok b := by
  cases r with
  | error e => rw [error_bind] at h; exact Except.noConfusion h
  | ok a => rw [ok_bind] at h; exact ⟨a, rfl, h⟩

theorem packFloats_ok (l : List ℚ) (h : ∀ q ∈ l, F32Packable q) :
    packFloats l = .ok ((l.map f32le).flatten) := by
  induction l with
  | nil => rfl
  | cons q t ih =>
    simp only [packFloats, pack_f_ok (h q (by simp)),
      ih (fun q' hq' => h q' (by simp [hq'])), ok_bind, List.map_cons, List.flatten_cons]

theorem packFloats_ok_len {l : List ℚ} :
    ∀ {b : List ℕ}, packFloats l = .ok b → b.length = 4 * l.length := by
  induction l with
  | nil =>
    intro b h
    injection h with h2
    rw [← h2]
    rfl
  | cons q t ih =>
    intro b h
    simp only [packFloats] at h
    obtain ⟨fb, hfb, h⟩ := bind_ok_inv h
    obtain ⟨tb, htb, h⟩ := bind_ok_inv h
    injection h with h2
    rw [← h2, List.length_append, pack_f_ok_inv hfb, ih htb, List.length_cons]
    ring

/-- The overflow path of the model, matching the OverflowError struct.pack
raises for a finite value outside the binary32 range: nothing is sent. -/
theorem pack_f_overflow :
    pack_f (10 ^ 39) = .error .overflowError ∧
    sendCTRL [10 ^ 39, 0, 0, 0, -998, 0] 0 = .error .overflowError ∧
    sendDATA [[0, 10 ^ 39, 0, 0, 0, 0, 0, 0, 0]] = .error .overflowError := by
  refine ⟨by decide, by decide, by decide⟩

/-- C1: encoding DATA rows with sendDATA and then decoding the bytes with
readDATA does NOT return the original tuples: sendDATA packs the row index
through the unsigned 32-bit format I while readDATA re-reads those 4 bytes
as a binary32 float, so the row [1, 1, 1, 1, 1, 1, 1, 1, 1] comes back with
first element 2 ^ (-149) (the subnormal float32 whose bit pattern is 1)
instead of 1.  The 8 data floats do come back unchanged. -/
theorem sendDATA_readDATA_roundtrip_fails_on_index :
    (sendDATA [[1, 1, 1, 1, 1, 1, 1, 1, 1]]).bind readDATA =
      .ok (some [[1 / 2 ^ 149, 1, 1, 1, 1, 1, 1, 1, 1]]) ∧
    (1 / 2 ^ 149 : ℚ) ≠ 1 := by
  constructor
  · decide
  · decide

end

section

attribute [local semireducible] Rat.mul Rat.inv Rat.add Rat.sub Rat.ofScientific

/-- C2: sendDREF never sends a sequence of values.  The struct.pack call at
line 232 passes the sequence as a single argument (the * splat is missing),
so every sequence - here the empty one, a singleton and a pair - raises
struct.error; the claimed layout is only ever produced for a scalar.  The
validation failures the claim lists (empty name, long name, None values,
more than 255 values) are ValueError as claimed, and the scalar path shows
the intended layout with count byte 1. -/
theorem sendDREF_sequence_always_structError :
    sendDREF [115, 105, 109] (.seq [1, 2]) = .error .structError ∧
    sendDREF [115, 105, 109] (.seq [1]) = .error .structError ∧
    sendDREF [115, 105, 109] (.seq []) = .error .structError ∧
    sendDREF [115, 105, 109] .null = .error .valueError ∧
    sendDREF [] (.scalar 1) = .error .valueError ∧
    sendDREF (List.replicate 256 97) (.scalar 1) = .error .valueError ∧
    sendDREF [115, 105, 109] (.seq (List.replicate 256 1)) = .error .valueError ∧
    sendDREF [115, 105, 109] (.scalar 1) =
      .ok ([68, 82, 69, 70, 0, 3] ++ [115, 105, 109] ++ [1] ++ [0, 0, 128, 63]) := by
  refine ⟨by decide, by decide, by decide, by decide, by decide, by decide, by decide, by decide⟩

/-- C3: sendWYPT with op = 1 and exactly 255 points (765 floats) does not
succeed: the float count 765 goes through the unsigned byte format B and
struct.pack raises struct.error, nothing is sent.  256 points (768 floats)
are indeed rejected by the explicit count validation with ValueError, as are
an op outside [1, 3] and a point list not divisible by 3. -/
theorem sendWYPT_255_points_structError :
    sendWYPT 1 (List.replicate 765 1) = .error .structError ∧
    sendWYPT 1 (List.replicate 768 1) = .error .valueError ∧
    sendWYPT 0 [] = .error .valueError ∧
    sendWYPT 4 [] = .error .valueError ∧
    sendWYPT 1 [1] = .error .valueError := by
  refine ⟨by decide, by decide, by decide, by decide, by decide⟩

/-- C5 counterexample: it is not true that sendWYPT with op = 3 sends the
header plus (3, 0) for EVERY points argument: a 1-element points list fails
the divisibility-by-3 validation, which runs before the op = 3 branch, and
the call raises ValueError instead of sending. -/
theorem sendWYPT_clear_rejects_nondivisible_points :
    sendWYPT 3 [1] = .error .valueError ∧
    Except.error Err.valueError ≠ (.ok [87, 89, 80, 84, 0, 3, 0] : Except Err (List Nat)) := by
  refine ⟨by decide, by decide⟩

/-- C5 amended: for every points argument that passes the shared length
validations (length divisible by 3, at most 255 points), sendWYPT with
op = 3 sends exactly the 5-byte WYPT header followed by the two bytes
(3, 0), ignoring the point values entirely. -/
theorem sendWYPT_clear_ignores_point_values (points : List ℚ)
    (h3 : points.length % 3 = 0) (h255 : points.length / 3 ≤ 255) :
    sendWYPT 3 points = .ok [87, 89, 80, 84, 0, 3, 0] := by
  unfold sendWYPT
  rw [if_neg (by decide), if_neg (by simp [h3]), if_neg (by omega), if_pos rfl]

/-- Witness for the amended C5 theorem at the concrete points [4, 5, 6]. -/
theorem sendWYPT_clear_ignores_point_values_witness :
    sendWYPT 3 [4, 5, 6] = .ok [87, 89, 80, 84, 0, 3, 0] :=
  sendWYPT_clear_ignores_point_values [4, 5, 6] (by decide) (by decide)

end

section

attribute [local semireducible] Rat.mul Rat.inv Rat.add Rat.sub Rat.ofScientific

/-- C6: in sendCTRL, under the documented argument constraints and with the
non-gear values inside the binary32 packable range (otherwise struct.pack
raises OverflowError and nothing is sent), a gear value (5th element of
values) within 1e-4 of -998 is sent as the signed byte -1 (wire byte 255),
while gear values 0 and 1 are sent as those literal integers in the single
gear byte; all remaining positions of the first six are the 4-byte
little-endian binary32 encodings of their values, followed by the aircraft
byte and, only for a 7-element list, the speedbrake float. -/
theorem sendCTRL_gear_byte_encoding (vs : List ℚ) (ac : ℤ) (gb : ℕ)
    (h5 : 5 ≤ vs.length) (h7 : vs.length ≤ 7) (ha0 : 0 ≤ ac) (ha : ac ≤ 20)
    (hp0 : F32Packable (vs.getD 0 (-998))) (hp1 : F32Packable (vs.getD 1 (-998)))
    (hp2 : F32Packable (vs.getD 2 (-998))) (hp3 : F32Packable (vs.getD 3 (-998)))
    (hp5 : F32Packable (vs.getD 5 (-998))) (hp6 : F32Packable (vs.getD 6 (-998)))
    (hg : (|vs.getD 4 (-998) + 998| < 1 / 10000 ∧ gb = 255) ∨
          (vs.getD 4 (-998) = 0 ∧ gb = 0) ∨ (vs.getD 4 (-998) = 1 ∧ gb = 1)) :
    sendCTRL vs ac = .ok ([67, 84, 82, 76, 0] ++
      f32le (vs.getD 0 (-998)) ++ f32le (vs.getD 1 (-998)) ++
      f32le (vs.getD 2 (-998)) ++ f32le (vs.getD 3 (-998)) ++
      [gb] ++ f32le (vs.getD 5 (-998)) ++ [ac.toNat] ++
      (if vs.length = 7 then f32le (vs.getD 6 (-998)) else [])) := by
  have hac : pack_B ac = .ok [ac.toNat] := by
    unfold pack_B; rw [if_pos ⟨ha0, by omega⟩]
  have hgear : pack_b (qtrunc
      (if |vs.getD 4 (-998) + 998| < 1 / 10000 then -1 else vs.getD 4 (-998))) =
      .ok [gb] := by
    rcases hg with ⟨h, hgb⟩ | ⟨h, hgb⟩ | ⟨h, hgb⟩
    · subst hgb
      rw [if_pos h, show qtrunc (-1 : ℚ) = -1 from by decide]
      decide
    · subst hgb
      rw [h, if_neg (by decide), show qtrunc (0 : ℚ) = 0 from by decide]
      decide
    · subst hgb
      rw [h, if_neg (by decide), show qtrunc (1 : ℚ) = 1 from by decide]
      decide
  have hsb : packSpeedbrake vs =
      .ok (if vs.length = 7 then f32le (vs.getD 6 (-998)) else []) := by
    unfold packSpeedbrake
    by_cases h7e : vs.length = 7
    · rw [if_pos h7e, if_pos h7e, pack_f_ok hp6]
    · rw [if_neg h7e, if_neg h7e]
  unfold sendCTRL
  rw [if_neg (by omega), if_neg (by omega), pack_f_ok hp0, pack_f_ok hp1,
    pack_f_ok hp2, pack_f_ok hp3, hgear, pack_f_ok hp5, hac, hsb]
  simp only [ok_bind]

/-- Witness for C6 at values [0, 0, 0, 0, -998, 0] and aircraft 0: the gear
sentinel becomes wire byte 255 and the other five axes become float zeros. -/
theorem sendCTRL_gear_byte_encoding_witness :
    sendCTRL [0, 0, 0, 0, -998, 0] 0 = .ok ([67, 84, 82, 76, 0] ++
      f32le 0 ++ f32le 0 ++ f32le 0 ++ f32le 0 ++ [255] ++ f32le 0 ++ [0] ++ []) :=
  sendCTRL_gear_byte_encoding [0, 0, 0, 0, -998, 0] 0 255 (by decide) (by decide)
    (by decide) (by decide) (by decide) (by decide) (by decide) (by decide)
    (by decide) (by decide) (Or.inl ⟨by decide, rfl⟩)

/-- C10 counterexample: sendTEXT with x = 2 ^ 31 does not encode x at all:
struct.pack raises struct.error because 2 ^ 31 is outside the signed 4-byte
range, so the claim that every integer x is encoded fails.  By contrast
x = -5 (below the -1 sentinel) is accepted and a 14-byte message is sent. -/
theorem sendTEXT_large_x_structError :
    sendTEXT (some []) (2 ^ 31) (-1) = .error .structError ∧
    okLength (sendTEXT (some []) (-5) (-1)) = some 14 := by
  refine ⟨by decide, by decide⟩

/-- C10 amended: sendTEXT has no explicit validation on x - only y < -1 is
rejected with ValueError - and for x in the signed 4-byte range (with y in
range and the message at most 255 bytes) the message is sent with x encoded
as a little-endian 4-byte two-complement integer at offset 5. -/
theorem sendTEXT_x_unvalidated_in_range :
    (∀ (msg : Option (List ℕ)) (x y : ℤ), y < -1 → sendTEXT msg x y = .error .valueError) ∧
    (∀ (m : List ℕ) (x y : ℤ), -(2 ^ 31) ≤ x → x < 2 ^ 31 → -1 ≤ y → y < 2 ^ 31 →
      m.length ≤ 255 →
      sendTEXT (some m) x y = .ok ([84, 69, 88, 84, 0] ++ bytes4LE (x % 2 ^ 32).toNat ++
        bytes4LE (y % 2 ^ 32).toNat ++ [m.length] ++ m)) := by
  constructor
  · intro msg x y hy
    unfold sendTEXT
    rw [if_pos hy]
  · intro m x y hx1 hx2 hy1 hy2 hml
    have hbx : pack_i x = .ok (bytes4LE (x % 2 ^ 32).toNat) := by
      unfold pack_i; rw [if_pos ⟨hx1, hx2⟩]
    have hby : pack_i y = .ok (bytes4LE (y % 2 ^ 32).toNat) := by
      unfold pack_i; rw [if_pos ⟨by omega, hy2⟩]
    have hc : pack_B (m.length : ℤ) = .ok [m.length] := by
      unfold pack_B
      rw [if_pos ⟨by omega, by exact_mod_cast hml⟩]
      simp
    unfold sendTEXT
    rw [if_neg (by omega)]
    simp only [Option.getD_some, hbx, hby, hc, ok_bind]

/-- Witness for the amended C10 theorem: y = -2 is rejected, and x = -5
(with a 2-byte message) is sent encoded as 4294967291 little-endian. -/
theorem sendTEXT_x_unvalidated_in_range_witness :
    sendTEXT (some [104, 105]) 7 (-2) = .error .valueError ∧
    sendTEXT (some [104, 105]) (-5) (-1) = .ok ([84, 69, 88, 84, 0] ++
      bytes4LE ((-5 % 2 ^ 32 : ℤ)).toNat ++ bytes4LE ((-1 % 2 ^ 32 : ℤ)).toNat ++
      [2] ++ [104, 105]) :=
  ⟨sendTEXT_x_unvalidated_in_range.1 (some [104, 105]) 7 (-2) (by decide),
   sendTEXT_x_unvalidated_in_range.2 [104, 105] (-5) (-1) (by decide) (by decide)
     (by decide) (by decide) (by decide)⟩

end

section

attribute [local semireducible] Rat.mul Rat.inv Rat.add Rat.sub Rat.ofScientific

theorem get?_isSome_of_lt {l : List ℕ} {i : ℕ} (h : i < l.length) :
    ∃ a, l.get? i = some a := by
  cases hg : l.get? i with
  | none => exact absurd (List.get?_eq_none.mp hg) (by omega)
  | some a => exact ⟨a, rfl⟩

theorem readF32s_ok (buf : List ℕ) :
    ∀ (n off : ℕ), off + 4 * n ≤ buf.length →
      ∃ vs, readF32s buf off n = .ok vs ∧ vs.length = n := by
  intro n
  induction n with
  | zero => exact fun off _ => ⟨[], rfl, rfl⟩
  | succ n ih =>
    intro off h
    obtain ⟨a, ha⟩ := get?_isSome_of_lt (show off < buf.length by omega)
    obtain ⟨b, hb⟩ := get?_isSome_of_lt (show off + 1 < buf.length by omega)
    obtain ⟨c, hc⟩ := get?_isSome_of_lt (show off + 2 < buf.length by omega)
    obtain ⟨d, hd⟩ := get?_isSome_of_lt (show off + 3 < buf.length by omega)
    obtain ⟨vs, hvs, hlen⟩ := ih (off + 4) (by omega)
    refine ⟨f32val (dec4LE a b c d) :: vs, ?_, by simp [hlen]⟩
    simp only [readF32s, ha, hb, hc, hd, hvs, ok_bind]

theorem readRows_ok (buf : List ℕ) :
    ∀ (n off : ℕ), off + 36 * n ≤ buf.length →
      ∃ rs, readRows buf off n = .ok rs ∧ rs.length = n ∧ ∀ r ∈ rs, r.length = 9 := by
  intro n
  induction n with
  | zero => exact fun off _ => ⟨[], rfl, rfl, by simp⟩
  | succ n ih =>
    intro off h
    obtain ⟨r, hr, hrlen⟩ := readF32s_ok buf 9 off (by omega)
    obtain ⟨rs, hrs, hlen, hall⟩ := ih (off + 36) (by omega)
    refine ⟨r :: rs, ?_, by simp [hlen], ?_⟩
    · simp only [readRows, hr, hrs, ok_bind]
    · intro r' hr'
      rcases List.mem_cons.mp hr' with rfl | hmem
      · exact hrlen
      · exact hall r' hmem

/-- C8: readDATA is defensive.  A received buffer below 6 bytes returns the
no-data sentinel (Python None) rather than raising; a buffer of at least 6
bytes always decodes - the result is never a struct.error, so no read ever
passes the end of the buffer - into (len - 5) / 36 rows (integer division,
rounding down), each a tuple of 9 floats read starting at offset 5. -/
theorem readDATA_defensive_decode (buf : List ℕ) :
    (buf.length < 6 → readDATA buf = .ok none) ∧
    (6 ≤ buf.length → ∃ rows, readDATA buf = .ok (some rows) ∧
      rows.length = (buf.length - 5) / 36 ∧ ∀ r ∈ rows, r.length = 9) := by
  constructor
  · intro h; unfold readDATA; rw [if_pos h]
  · intro h
    obtain ⟨rows, hrows, hlen, hall⟩ :=
      readRows_ok buf ((buf.length - 5) / 36) 5 (by omega)
    refine ⟨rows, ?_, hlen, hall⟩
    unfold readDATA
    rw [if_neg (by omega), hrows]
    simp only [ok_bind]

/-- Witness for C8 at a 3-byte buffer (sentinel) and a 41-byte buffer
(one decoded row of 9 values, (41 - 5) / 36 = 1). -/
theorem readDATA_defensive_decode_witness :
    readDATA [0, 0, 0] = .ok none ∧
    (∃ rows, readDATA (List.replicate 41 0) = .ok (some rows) ∧
      rows.length = (41 - 5) / 36 ∧ ∀ r ∈ rows, r.length = 9) :=
  ⟨(readDATA_defensive_decode [0, 0, 0]).1 (by decide),
   (readDATA_defensive_decode (List.replicate 41 0)).2 (by decide)⟩

end

section

attribute [local semireducible] Rat.mul Rat.inv Rat.add Rat.sub Rat.ofScientific

theorem packRow_ok_of (r : List ℚ) (h9 : r.length = 9)
    (h0 : 0 ≤ qtrunc (r.getD 0 0)) (h32 : qtrunc (r.getD 0 0) < 2 ^ 32)
    (hf : ∀ q ∈ r.drop 1, F32Packable q) :
    ∃ b, packRow r = .ok b ∧ b.length = 36 := by
  refine ⟨bytes4LE (qtrunc (r.getD 0 0)).toNat ++ ((r.drop 1).map f32le).flatten, ?_, ?_⟩
  · unfold packRow pack_I
    rw [if_neg (by omega), if_pos ⟨h0, h32⟩, packFloats_ok _ hf]
    simp only [ok_bind]
  · rw [List.length_append, flatten_map_f32le_length, List.length_drop, h9]
    rfl

theorem packRows_ok_of (data : List (List ℚ))
    (h : ∀ r ∈ data, r.length = 9 ∧ 0 ≤ qtrunc (r.getD 0 0) ∧ qtrunc (r.getD 0 0) < 2 ^ 32 ∧
      ∀ q ∈ r.drop 1, F32Packable q) :
    ∃ b, packRows data = .ok b ∧ b.length = 36 * data.length := by
  induction data with
  | nil => exact ⟨[], rfl, rfl⟩
  | cons r t ih =>
    obtain ⟨h9, h0, h32, hf⟩ := h r (by simp)
    obtain ⟨b, hb, hblen⟩ := packRow_ok_of r h9 h0 h32 hf
    obtain ⟨bs, hbs, hbslen⟩ := ih (fun r' hr' => h r' (by simp [hr']))
    refine ⟨b ++ bs, ?_, ?_⟩
    · simp only [packRows, hb, hbs, ok_bind]
    · simp [hblen, hbslen, List.length_cons]
      ring

theorem packRows_err_of_badrow (data : List (List ℚ)) (hbad : ∃ r ∈ data, r.length ≠ 9) :
    ∃ e, packRows data = .error e := by
  induction data with
  | nil => obtain ⟨r, hr, _⟩ := hbad; cases hr
  | cons r t ih =>
    obtain ⟨r', hr', hlen⟩ := hbad
    rcases List.mem_cons.mp hr' with rfl | hmem
    · refine ⟨.valueError, ?_⟩
      simp only [packRows, packRow, if_pos hlen, error_bind]
    · cases hh : packRow r with
      | error e => exact ⟨e, by simp only [packRows, hh, error_bind]⟩
      | ok b =>
        obtain ⟨e, he⟩ := ih ⟨r', hmem, hlen⟩
        exact ⟨e, by simp only [packRows, hh, he, ok_bind, error_bind]⟩

/-- C7 counterexample: a single row of exactly 9 values whose first value is
-1 makes sendDATA raise struct.error (format I rejects a negative index), so
it is not true that every input of at most 134 rows of exactly 9 values
succeeds. -/
theorem sendDATA_negative_index_structError :
    sendDATA [[-1, 0, 0, 0, 0, 0, 0, 0, 0]] = .error .structError ∧
    okLength (sendDATA [[-1, 0, 0, 0, 0, 0, 0, 0, 0]]) = none := by
  refine ⟨by decide, by decide⟩

/-- C7 amended: sendDATA rejects 135 or more rows with ValueError; any input
containing a row without exactly 9 values is rejected with an error (nothing
sent; the error is ValueError unless an earlier row already failed to pack);
and it succeeds with a message of 5 + 36 bytes per row for every input of at
most 134 rows, each of exactly 9 values whose first value truncates into the
unsigned 32-bit range and whose remaining 8 values are inside the binary32
packable range (a value outside it makes struct.pack raise OverflowError
instead, and nothing is sent). -/
theorem sendDATA_bounds_and_success :
    (∀ data : List (List ℚ), 134 < data.length → sendDATA data = .error .valueError) ∧
    (∀ data : List (List ℚ), (∃ r ∈ data, r.length ≠ 9) → ∃ e, sendDATA data = .error e) ∧
    (∀ data : List (List ℚ), data.length ≤ 134 →
      (∀ r ∈ data, r.length = 9 ∧ 0 ≤ qtrunc (r.getD 0 0) ∧ qtrunc (r.getD 0 0) < 2 ^ 32 ∧
        ∀ q ∈ r.drop 1, F32Packable q) →
      ∃ b, sendDATA data = .ok b ∧ b.length = 5 + 36 * data.length) := by
  refine ⟨?_, ?_, ?_⟩
  · intro data h
    unfold sendDATA
    rw [if_pos h]
  · intro data hbad
    by_cases hlen : 134 < data.length
    · exact ⟨.valueError, by unfold sendDATA; rw [if_pos hlen]⟩
    · obtain ⟨e, he⟩ := packRows_err_of_badrow data hbad
      refine ⟨e, ?_⟩
      unfold sendDATA
      rw [if_neg hlen, he]
      simp only [error_bind]
  · intro data h134 hrows
    obtain ⟨b, hb, hblen⟩ := packRows_ok_of data hrows
    refine ⟨[68, 65, 84, 65, 0] ++ b, ?_, ?_⟩
    · unfold sendDATA
      rw [if_neg (by omega), hb]
      simp only [ok_bind]
    · simp [hblen]
      omega

/-- Witness for the amended C7 theorem: 135 empty rows are rejected, a
2-value row is rejected, and one well-formed row gives a 41-byte message. -/
theorem sendDATA_bounds_and_success_witness :
    sendDATA (List.replicate 135 []) = .error .valueError ∧
    (∃ e, sendDATA [[1, 2]] = .error e) ∧
    (∃ b, sendDATA [[0, 1, 2, 3, 4, 5, 6, 7, 8]] = .ok b ∧ b.length = 5 + 36 * 1) :=
  ⟨sendDATA_bounds_and_success.1 (List.replicate 135 []) (by decide),
   sendDATA_bounds_and_success.2.1 [[1, 2]] ⟨[1, 2], by decide, by decide⟩,
   sendDATA_bounds_and_success.2.2 [[0, 1, 2, 3, 4, 5, 6, 7, 8]] (by decide) (by decide)⟩

end

section

attribute [local semireducible] Rat.mul Rat.inv Rat.add Rat.sub Rat.ofScientific

/-- C4 counterexample: an input that violates a documented constraint (its
second row has 2 values instead of 9) makes sendDATA raise struct.error
rather than a validation error, because the first row - 9 values with index
-1 - fails inside struct.pack before the row-length check of the second row
is reached.  Nothing is sent either way, but the raised error is not a
ValueError. -/
theorem sendDATA_badrow_raises_structError_not_valueError :
    sendDATA [[-1, 0, 0, 0, 0, 0, 0, 0, 0], [1, 2]] = .error .structError ∧
    Err.structError ≠ Err.valueError := by
  refine ⟨by decide, by decide⟩

/-- C4 amended: every public send operation rejects each documented
constraint violation before any network transmission - an error result means
the single sendUDP call was never reached, so no bytes of a partially built
message are ever sent - and the error raised is ValueError, except that in
sendDATA a row-length violation is only guaranteed to raise SOME error: a
preceding row whose index fails to pack raises struct.error first. -/
theorem validation_rejects_before_send :
    (∀ port : ℤ, port < 0 ∨ 65535 < port → setCONN port = .error .valueError) ∧
    (∀ pause : ℤ, pause < 0 ∨ 2 < pause → pauseSim pause = .error .valueError) ∧
    (∀ data : List (List ℚ), 134 < data.length → sendDATA data = .error .valueError) ∧
    (∀ data : List (List ℚ), (∃ r ∈ data, r.length ≠ 9) → ∃ e, sendDATA data = .error e) ∧
    (∀ (vs : List ℚ) (ac : ℤ), vs.length < 1 ∨ 7 < vs.length ∨ ac < 0 ∨ 20 < ac →
      sendPOSI vs ac = .error .valueError) ∧
    (∀ (vs : List ℚ) (ac : ℤ), vs.length < 1 ∨ 7 < vs.length ∨ ac < 0 ∨ 20 < ac →
      sendCTRL vs ac = .error .valueError) ∧
    (∀ (dref : List ℕ) (vals : DREFValues),
      dref.length = 0 ∨ 255 < dref.length ∨ vals = .null ∨
        (∃ qs, vals = .seq qs ∧ 255 < qs.length) →
      sendDREF dref vals = .error .valueError) ∧
    (∀ (msg : Option (List ℕ)) (x y : ℤ), y < -1 → sendTEXT msg x y = .error .valueError) ∧
    (∀ (op : ℤ) (pts : List ℚ),
      op < 1 ∨ 3 < op ∨ pts.length % 3 ≠ 0 ∨ 255 < pts.length / 3 →
      sendWYPT op pts = .error .valueError) := by
  refine ⟨?_, ?_, ?_, ?_, ?_, ?_, ?_, ?_, ?_⟩
  · intro port h
    unfold setCONN
    rw [if_pos h]
  · intro pause h
    unfold pauseSim
    rw [if_pos h]
  · intro data h
    unfold sendDATA
    rw [if_pos h]
  · intro data hbad
    by_cases hlen : 134 < data.length
    · exact ⟨.valueError, by unfold sendDATA; rw [if_pos hlen]⟩
    · obtain ⟨e, he⟩ := packRows_err_of_badrow data hbad
      refine ⟨e, ?_⟩
      unfold sendDATA
      rw [if_neg hlen, he]
      simp only [error_bind]
  · intro vs ac h
    unfold sendPOSI
    by_cases h1 : vs.length < 1 ∨ 7 < vs.length
    · rw [if_pos h1]
    · have h2 : ac < 0 ∨ 20 < ac := by tauto
      rw [if_neg h1, if_pos h2]
  · intro vs ac h
    unfold sendCTRL
    by_cases h1 : vs.length < 1 ∨ 7 < vs.length
    · rw [if_pos h1]
    · have h2 : ac < 0 ∨ 20 < ac := by tauto
      rw [if_neg h1, if_pos h2]
  · intro dref vals h
    unfold sendDREF
    by_cases h1 : dref.length = 0 ∨ 255 < dref.length
    · rw [if_pos h1]
    · rw [if_neg h1]
      rcases h with h | h | rfl | ⟨qs, rfl, hqs⟩
      · exact absurd (Or.inl h) h1
      · exact absurd (Or.inr h) h1
      · rfl
      · simp only [if_pos hqs]
  · intro msg x y hy
    unfold sendTEXT
    rw [if_pos hy]
  · intro op pts h
    unfold sendWYPT
    by_cases h1 : op < 1 ∨ 3 < op
    · rw [if_pos h1]
    · rw [if_neg h1]
      by_cases h2 : pts.length % 3 ≠ 0
      · rw [if_pos h2]
      · have h3 : 255 < pts.length / 3 := by tauto
        rw [if_neg h2, if_pos h3]

/-- Witness for the amended C4 theorem: one documented violation per
operation, each rejected without sending. -/
theorem validation_rejects_before_send_witness :
    setCONN (-1) = .error .valueError ∧
    pauseSim 3 = .error .valueError ∧
    sendDATA (List.replicate 135 [0]) = .error .valueError ∧
    (∃ e, sendDATA [[1, 2, 3]] = .error e) ∧
    sendPOSI [] 0 = .error .valueError ∧
    sendCTRL [1] 21 = .error .valueError ∧
    sendDREF [] .null = .error .valueError ∧
    sendTEXT none 0 (-2) = .error .valueError ∧
    sendWYPT 5 [] = .error .valueError :=
  ⟨validation_rejects_before_send.1 (-1) (by decide),
   validation_rejects_before_send.2.1 3 (by decide),
   validation_rejects_before_send.2.2.1 (List.replicate 135 [0]) (by decide),
   validation_rejects_before_send.2.2.2.1 [[1, 2, 3]] ⟨[1, 2, 3], by decide, by decide⟩,
   validation_rejects_before_send.2.2.2.2.1 [] 0 (by decide),
   validation_rejects_before_send.2.2.2.2.2.1 [1] 21 (by decide),
   validation_rejects_before_send.2.2.2.2.2.2.1 [] .null (Or.inl (by decide)),
   validation_rejects_before_send.2.2.2.2.2.2.2.1 none 0 (-2) (by decide),
   validation_rejects_before_send.2.2.2.2.2.2.2.2 5 [] (by decide)⟩

end

section

attribute [local semireducible] Rat.mul Rat.inv Rat.add Rat.sub Rat.ofScientific

theorem withinLimit_intro (r : Except Err (List ℕ))
    (h : ∀ b, r = .ok b → b.length ≤ 16384) : withinLimit r := by
  cases r with
  | error e => trivial
  | ok b => exact h b rfl

theorem pack_B_ok_inv {n : ℤ} {b : List ℕ} (h : pack_B n = .ok b) :
    b.length = 1 ∧ n ≤ 255 := by
  unfold pack_B at h
  split at h
  case isTrue hc => injection h with h2; exact ⟨h2 ▸ rfl, hc.2⟩
  case isFalse => simp at h

theorem pack_b_ok_inv {n : ℤ} {b : List ℕ} (h : pack_b n = .ok b) : b.length = 1 := by
  unfold pack_b at h
  split at h
  case isTrue => injection h with h2; exact h2 ▸ rfl
  case isFalse => simp at h

theorem pack_H_ok_inv {n : ℤ} {b : List ℕ} (h : pack_H n = .ok b) : b.length = 2 := by
  unfold pack_H at h
  split at h
  case isTrue => injection h with h2; exact h2 ▸ rfl
  case isFalse => simp at h

theorem pack_I_ok_inv {n : ℤ} {b : List ℕ} (h : pack_I n = .ok b) : b.length = 4 := by
  unfold pack_I at h
  split at h
  case isTrue => injection h with h2; exact h2 ▸ rfl
  case isFalse => simp at h

theorem pack_i_ok_inv {n : ℤ} {b : List ℕ} (h : pack_i n = .ok b) : b.length = 4 := by
  unfold pack_i at h
  split at h
  case isTrue => injection h with h2; exact h2 ▸ rfl
  case isFalse => simp at h

theorem packRow_ok_len {r : List ℚ} {b : List ℕ} (h : packRow r = .ok b) : b.length = 36 := by
  unfold packRow at h
  split at h
  case isTrue => simp at h
  case isFalse hc =>
    obtain ⟨idx, hI, h⟩ := bind_ok_inv h
    obtain ⟨fs, hfs, h⟩ := bind_ok_inv h
    injection h with h2
    have h9 : r.length = 9 := not_ne_iff.mp hc
    rw [← h2, List.length_append, pack_I_ok_inv hI, packFloats_ok_len hfs,
      List.length_drop, h9]

theorem packRows_ok_len {data : List (List ℚ)} :
    ∀ {b : List ℕ}, packRows data = .ok b → b.length = 36 * data.length := by
  induction data with
  | nil =>
    intro b h
    injection h with h2
    rw [← h2]
    rfl
  | cons r t ih =>
    intro b h
    simp only [packRows] at h
    cases hr : packRow r with
    | error e => rw [hr] at h; simp at h
    | ok rb =>
      rw [hr] at h
      simp only [ok_bind] at h
      cases ht : packRows t with
      | error e => rw [ht] at h; simp at h
      | ok tb =>
        rw [ht] at h
        simp only [ok_bind] at h
        injection h with h2
        rw [← h2, List.length_append, packRow_ok_len hr, ih ht, List.length_cons]
        ring

theorem getdParts_ok (drefs : List (List ℕ)) (h : ∀ d ∈ drefs, d.length ≤ 255) :
    ∃ b, getdParts drefs = .ok b ∧
      b.length = (drefs.map (fun d => 1 + d.length)).sum := by
  induction drefs with
  | nil => exact ⟨[], rfl, rfl⟩
  | cons d t ih =>
    obtain ⟨b, hb, hlen⟩ := ih (fun d' hd' => h d' (by simp [hd']))
    have hd : pack_B (d.length : ℤ) = .ok [d.length] := by
      unfold pack_B
      rw [if_pos ⟨by omega, by exact_mod_cast h d (by simp)⟩]
      simp
    refine ⟨[d.length] ++ d ++ b, ?_, ?_⟩
    · simp only [getdParts, hd, hb, ok_bind]
    · simp [hlen]
      omega

/-- C9 counterexample: getDREFs is a public operation whose request encoding
passes no validation at all beyond the one-byte packs, and 65 dataref names
of 255 bytes each produce a 16646-byte buffer handed to sendUDP - beyond
the 16384-byte receive-buffer invariant the claim states for every public
encoding operation (255 names of 255 bytes reach 65286 bytes). -/
theorem getDREFsRequest_exceeds_limit :
    okLength (getDREFsRequest (List.replicate 65 (List.replicate 255 97))) = some 16646 ∧
    16384 < 16646 := by
  constructor
  · obtain ⟨b, hb, hlen⟩ := getdParts_ok (List.replicate 65 (List.replicate 255 97))
      (fun d hd => by rw [List.eq_of_mem_replicate hd]; simp)
    have hsum : ((List.replicate 65 (List.replicate 255 (97 : ℕ))).map
        (fun d => 1 + d.length)).sum = 16640 := by
      rw [List.map_replicate, List.sum_replicate]
      simp
    have h65 : (List.replicate 65 (List.replicate 255 (97 : ℕ))).length = 65 := by simp
    have hc : pack_B ((List.replicate 65 (List.replicate 255 (97 : ℕ))).length : ℤ) =
        .ok [65] := by
      rw [h65]; decide
    unfold getDREFsRequest
    rw [hc, hb]
    simp only [ok_bind, okLength]
    rw [List.length_append, List.length_append, hlen, hsum]
    rfl
  · norm_num

end

section

attribute [local semireducible] Rat.mul Rat.inv Rat.add Rat.sub Rat.ofScientific

/-- C9 amended: every public SEND operation - setCONN, pauseSim, sendDATA,
sendPOSI, sendCTRL, sendDREF, sendTEXT, sendWYPT - hands at most 16384
bytes to the transport whenever it succeeds (the largest possible buffer is
the 4829-byte full DATA message); the GETD request built by getDREFs is the
exception the counterexample exhibits and is not bounded by 16384. -/
theorem send_operations_within_limit :
    (∀ port : ℤ, withinLimit (setCONN port)) ∧
    (∀ pause : ℤ, withinLimit (pauseSim pause)) ∧
    (∀ data : List (List ℚ), withinLimit (sendDATA data)) ∧
    (∀ (vs : List ℚ) (ac : ℤ), withinLimit (sendPOSI vs ac)) ∧
    (∀ (vs : List ℚ) (ac : ℤ), withinLimit (sendCTRL vs ac)) ∧
    (∀ (dref : List ℕ) (vals : DREFValues), withinLimit (sendDREF dref vals)) ∧
    (∀ (msg : Option (List ℕ)) (x y : ℤ), withinLimit (sendTEXT msg x y)) ∧
    (∀ (op : ℤ) (pts : List ℚ), withinLimit (sendWYPT op pts)) := by
  refine ⟨?_, ?_, ?_, ?_, ?_, ?_, ?_, ?_⟩
  · intro port
    apply withinLimit_intro
    intro b hb
    unfold setCONN at hb
    split at hb
    · simp at hb
    · cases hp : pack_H port with
      | error e => rw [hp] at hb; simp at hb
      | ok p =>
        rw [hp] at hb
        simp only [ok_bind] at hb
        injection hb with h2
        rw [← h2, List.length_append, pack_H_ok_inv hp]
        norm_num
  · intro pause
    apply withinLimit_intro
    intro b hb
    unfold pauseSim at hb
    split at hb
    · simp at hb
    · cases hp : pack_B pause with
      | error e => rw [hp] at hb; simp at hb
      | ok p =>
        rw [hp] at hb
        simp only [ok_bind] at hb
        injection hb with h2
        rw [← h2, List.length_append, (pack_B_ok_inv hp).1]
        norm_num
  · intro data
    apply withinLimit_intro
    intro b hb
    unfold sendDATA at hb
    split at hb
    · simp at hb
    case isFalse hlen =>
      cases hr : packRows data with
      | error e => rw [hr] at hb; simp at hb
      | ok body =>
        rw [hr] at hb
        simp only [ok_bind] at hb
        injection hb with h2
        rw [← h2, List.length_append, packRows_ok_len hr]
        have : data.length ≤ 134 := by omega
        simp only [List.length_cons, List.length_nil]
        omega
  · intro vs ac
    apply withinLimit_intro
    intro b hb
    unfold sendPOSI at hb
    split at hb
    · simp at hb
    · split at hb
      · simp at hb
      · obtain ⟨a, ha, hb⟩ := bind_ok_inv hb
        obtain ⟨b0, hb0, hb⟩ := bind_ok_inv hb
        obtain ⟨b1, hb1, hb⟩ := bind_ok_inv hb
        obtain ⟨b2, hb2, hb⟩ := bind_ok_inv hb
        obtain ⟨b3, hb3, hb⟩ := bind_ok_inv hb
        obtain ⟨b4, hb4, hb⟩ := bind_ok_inv hb
        obtain ⟨b5, hb5, hb⟩ := bind_ok_inv hb
        obtain ⟨b6, hb6, hb⟩ := bind_ok_inv hb
        injection hb with he
        rw [← he]
        simp only [List.length_append, List.length_cons, List.length_nil,
          (pack_B_ok_inv ha).1, pack_f_ok_inv hb0, pack_f_ok_inv hb1, pack_f_ok_inv hb2,
          pack_f_ok_inv hb3, pack_f_ok_inv hb4, pack_f_ok_inv hb5, pack_f_ok_inv hb6]
        omega
  · intro vs ac
    apply withinLimit_intro
    intro b hb
    unfold sendCTRL at hb
    split at hb
    · simp at hb
    · split at hb
      · simp at hb
      · obtain ⟨b0, hb0, hb⟩ := bind_ok_inv hb
        obtain ⟨b1, hb1, hb⟩ := bind_ok_inv hb
        obtain ⟨b2, hb2, hb⟩ := bind_ok_inv hb
        obtain ⟨b3, hb3, hb⟩ := bind_ok_inv hb
        obtain ⟨g, hg, hb⟩ := bind_ok_inv hb
        obtain ⟨b5, hb5, hb⟩ := bind_ok_inv hb
        obtain ⟨a, ha, hb⟩ := bind_ok_inv hb
        obtain ⟨sb, hsb, hb⟩ := bind_ok_inv hb
        injection hb with he
        have hsb4 : sb.length ≤ 4 := by
          unfold packSpeedbrake at hsb
          split at hsb
          · exact (pack_f_ok_inv hsb).le
          · injection hsb with he2
            rw [← he2]
            simp
        rw [← he]
        simp only [List.length_append, List.length_cons, List.length_nil,
          pack_f_ok_inv hb0, pack_f_ok_inv hb1, pack_f_ok_inv hb2, pack_f_ok_inv hb3,
          pack_b_ok_inv hg, pack_f_ok_inv hb5, (pack_B_ok_inv ha).1]
        omega
  · intro dref vals
    apply withinLimit_intro
    intro b hb
    unfold sendDREF at hb
    split at hb
    · simp at hb
    case isFalse h1 =>
      cases vals with
      | null => simp at hb
      | seq qs =>
        dsimp only [] at hb
        split at hb
        · simp at hb
        · split at hb
          · simp at hb
          · simp at hb
      | scalar q =>
        dsimp only [] at hb
        obtain ⟨n, hn, hb⟩ := bind_ok_inv hb
        obtain ⟨c, hc, hb⟩ := bind_ok_inv hb
        obtain ⟨v, hv, hb⟩ := bind_ok_inv hb
        injection hb with he
        have hd255 : dref.length ≤ 255 := by
          rcases Nat.lt_or_ge 255 dref.length with hgt | hle
          · exact absurd (Or.inr hgt) h1
          · exact hle
        rw [← he]
        simp only [List.length_append, List.length_cons, List.length_nil,
          (pack_B_ok_inv hn).1, (pack_B_ok_inv hc).1, pack_f_ok_inv hv]
        omega
  · intro msg x y
    apply withinLimit_intro
    intro b hb
    unfold sendTEXT at hb
    split at hb
    · simp at hb
    · cases hx : pack_i x with
      | error e => rw [hx] at hb; simp at hb
      | ok bx =>
        rw [hx] at hb
        simp only [ok_bind] at hb
        cases hy : pack_i y with
        | error e => rw [hy] at hb; simp at hb
        | ok yb =>
          rw [hy] at hb
          simp only [ok_bind] at hb
          cases hc : pack_B ((msg.getD []).length : ℤ) with
          | error e => rw [hc] at hb; simp at hb
          | ok c =>
            rw [hc] at hb
            simp only [ok_bind] at hb
            injection hb with h2
            have hm : (msg.getD []).length ≤ 255 := by
              have := (pack_B_ok_inv hc).2
              exact_mod_cast this
            rw [← h2]
            simp only [List.length_append, List.length_cons, List.length_nil,
              pack_i_ok_inv hx, pack_i_ok_inv hy, (pack_B_ok_inv hc).1]
            omega
  · intro op pts
    apply withinLimit_intro
    intro b hb
    unfold sendWYPT at hb
    split at hb
    · simp at hb
    · split at hb
      · simp at hb
      · split at hb
        · simp at hb
        · split at hb
          · injection hb with h2
            rw [← h2]
            norm_num
          · obtain ⟨o, ho, hb⟩ := bind_ok_inv hb
            obtain ⟨c, hc, hb⟩ := bind_ok_inv hb
            obtain ⟨fs, hfs, hb⟩ := bind_ok_inv hb
            injection hb with he
            have hm : pts.length ≤ 255 := by
              have := (pack_B_ok_inv hc).2
              exact_mod_cast this
            rw [← he]
            simp only [List.length_append, List.length_cons, List.length_nil,
              (pack_B_ok_inv ho).1, (pack_B_ok_inv hc).1, packFloats_ok_len hfs]
            omega

/-- Witness for the amended C9 theorem at one succeeding call per send
operation. -/
theorem send_operations_within_limit_witness :
    withinLimit (setCONN 0) ∧ withinLimit (pauseSim 0) ∧ withinLimit (sendDATA []) ∧
    withinLimit (sendPOSI [0] 0) ∧ withinLimit (sendCTRL [0] 0) ∧
    withinLimit (sendDREF [97] (.scalar 0)) ∧ withinLimit (sendTEXT (some []) 0 0) ∧
    withinLimit (sendWYPT 3 []) :=
  ⟨send_operations_within_limit.1 0,
   send_operations_within_limit.2.1 0,
   send_operations_within_limit.2.2.1 [],
   send_operations_within_limit.2.2.2.1 [0] 0,
   send_operations_within_limit.2.2.2.2.1 [0] 0,
   send_operations_within_limit.2.2.2.2.2.1 [97] (.scalar 0),
   send_operations_within_limit.2.2.2.2.2.2.1 (some []) 0 0,
   send_operations_within_limit.2.2.2.2.2.2.2 3 []⟩

end
